import Mathlib

/-!
Shallow embedding of the visa-bulletin scraper (`scraper.py`) of the
repository `itsmanishagarwal/visa-bulletin-analyser`, together with proofs
about its normalization, parsing and range-generation functions.

Modelling conventions:
* Python strings are Lean `String`s (lists of characters).  The Unicode NFKD
  normalization step of `_clean_text` is modelled character-wise on the
  repertoire relevant to bulletin text: NFKD decomposes the no-break space
  U+00A0 to an ASCII space and leaves ASCII characters and the soft hyphen
  U+00AD unchanged; all other characters are treated as atomic.
* Python regular-expression operations on strings are embedded as executable
  character-list scans that follow the left-to-right, non-overlapping
  replacement discipline of `re.sub`.
* `datetime.strptime` with the formats `%d%b%y` / `%d%b%Y` is embedded
  following CPython's `_strptime` regexes (`%d` accepting 1-31 with an
  optional leading zero, `%b` a three-letter month abbreviation, `%y`
  exactly two digits with the 69-pivot, `%Y` exactly four digits), a full
  match being required and the constructed date being validated (month
  lengths, leap years) exactly as `datetime` does.
* HTML documents are embedded at the level BeautifulSoup delivers them to
  `parse_bulletin`: a document is a list of tables, a table a list of rows,
  a row the list of its cells' stripped texts.
-/

/-! ## Character-level helpers -/

/-- Characters matched by Python's `\s` (and stripped by `str.strip()`)
on the repertoire modelled here: ASCII whitespace, the separator controls
U+001C-U+001F and U+0085, the no-break space and the main Unicode space
separators. -/
def isPySpace (c : Char) : Bool :=
  c = ' ' || c = '\t' || c = '\n' || c = '\r' || c = '\u000b' || c = '\u000c' ||
  c = '\u001c' || c = '\u001d' || c = '\u001e' || c = '\u001f' || c = '\u0085' ||
  c = '\u00a0' || c = '\u1680' ||
  ('\u2000' ≤ c && c ≤ '\u200a') ||
  c = '\u2028' || c = '\u2029' || c = '\u202f' || c = '\u205f' || c = '\u3000'

/-- Characters matched by Python's `\w` on the ASCII repertoire:
letters, digits and the underscore. -/
def isPyWord (c : Char) : Bool :=
  ('a' ≤ c && c ≤ 'z') || ('A' ≤ c && c ≤ 'Z') || ('0' ≤ c && c ≤ '9') || c = '_'

/-- Character-wise model of `unicodedata.normalize("NFKD", ·)`: the no-break
space U+00A0 decomposes to an ASCII space; ASCII characters and the soft
hyphen U+00AD are their own normal forms; other characters are atomic. -/
def nfkdChar (c : Char) : Char :=
  if c = '\u00a0' then ' ' else c

/-- `re.sub(r"\s+", " ", ·)` on a character list: every maximal run of
whitespace becomes a single ASCII space.  The flag records whether the
previous character belonged to a whitespace run. -/
def collapseWS : Bool → List Char → List Char
  | _, [] => []
  | inRun, c :: cs =>
    if isPySpace c then
      if inRun then collapseWS true cs else ' ' :: collapseWS true cs
    else
      c :: collapseWS false cs

/-- `str.replace("\u00ad", "")`: remove every soft hyphen. -/
def removeSoftHyphens (l : List Char) : List Char :=
  l.filter (fun c => c ≠ '\u00ad')

/-- Drop trailing whitespace. -/
def rdropWS (l : List Char) : List Char :=
  (l.reverse.dropWhile isPySpace).reverse

/-- `str.strip()`: drop whitespace from both ends. -/
def stripEnds (l : List Char) : List Char :=
  rdropWS (l.dropWhile isPySpace)

/-- `_clean_text` from `scraper.py`: NFKD-normalize, collapse every
whitespace run to one space, remove soft hyphens, strip. -/
def _clean_text (raw : String) : String :=
  String.mk (stripEnds (removeSoftHyphens (collapseWS false (raw.data.map nfkdChar))))

/-- `str.upper()` (ASCII repertoire). -/
def upperStr (s : String) : String := String.mk (s.data.map Char.toUpper)

/-- `str.lower()` (ASCII repertoire). -/
def lowerStr (s : String) : String := String.mk (s.data.map Char.toLower)

/-! ## Substring containment (the Python `in` operator on strings) -/

/-- `needle` is a prefix of `hay`. -/
def listIsPfx : List Char → List Char → Bool
  | [], _ => true
  | _ :: _, [] => false
  | a :: as, b :: bs => a = b && listIsPfx as bs

/-- `needle` occurs contiguously inside `hay`. -/
def listHas (needle : List Char) : List Char → Bool
  | [] => needle.isEmpty
  | b :: bs => listIsPfx needle (b :: bs) || listHas needle bs

/-- Python's `sub in s` for strings. -/
def strHas (sub s : String) : Bool := listHas sub.data s.data

/-! ## Date parsing (`parse_date` and its `datetime.strptime` formats) -/

/-- ASCII decimal digit test (code points 48-57). -/
def isDig (c : Char) : Bool := 48 ≤ c.toNat && c.toNat ≤ 57

/-- Numeric value of an ASCII digit. -/
def digVal (c : Char) : Nat := c.toNat - 48

/-- The `%d` directive of CPython `_strptime`
(regex `3[01]|[12]\d|0[1-9]|[1-9]`): a two-digit day 01-31 is preferred;
a single digit 1-9 is accepted when no two-digit day can match (the
following character is not a digit, since the next directive `%b` only
matches letters). -/
def parseDayTok : List Char → Option (Nat × List Char)
  | a :: b :: rest =>
    if isDig a && isDig b then
      let v := 10 * digVal a + digVal b
      if 1 ≤ v && v ≤ 31 then some (v, rest) else none
    else if isDig a && 1 ≤ digVal a then some (digVal a, b :: rest)
    else none
  | [a] => if isDig a && 1 ≤ digVal a then some (digVal a, []) else none
  | [] => none

/-- The `%b` directive: a three-letter English month abbreviation.  The
input has already been upper-cased by `parse_date`, so the comparison is
against the upper-case forms. -/
def parseMonTok : List Char → Option (Nat × List Char)
  | a :: b :: c :: rest =>
    let t : List Char := [a, b, c]
    if t = "JAN".data then some (1, rest)
    else if t = "FEB".data then some (2, rest)
    else if t = "MAR".data then some (3, rest)
    else if t = "APR".data then some (4, rest)
    else if t = "MAY".data then some (5, rest)
    else if t = "JUN".data then some (6, rest)
    else if t = "JUL".data then some (7, rest)
    else if t = "AUG".data then some (8, rest)
    else if t = "SEP".data then some (9, rest)
    else if t = "OCT".data then some (10, rest)
    else if t = "NOV".data then some (11, rest)
    else if t = "DEC".data then some (12, rest)
    else none
  | _ => none

/-- Gregorian leap-year rule used by `datetime`. -/
def isLeapYear (y : Nat) : Bool :=
  y % 4 = 0 && (y % 100 ≠ 0 || y % 400 = 0)

/-- Number of days of month `m` of year `y`, as validated by `datetime`. -/
def daysInMonth (y m : Nat) : Nat :=
  if m = 2 then (if isLeapYear y then 29 else 28)
  else if m = 4 || m = 6 || m = 9 || m = 11 then 30
  else 31

/-- `datetime.strptime(s, "%d%b%y")`: day, month abbreviation, then exactly
two final digits.  CPython maps a two-digit year `yy` to `2000 + yy` when
`yy <= 68` and to `1900 + yy` otherwise, then validates the day against the
month length.  Returns `(year, month, day)`. -/
def strptimeDby (l : List Char) : Option (Nat × Nat × Nat) :=
  match parseDayTok l with
  | none => none
  | some (d, r1) =>
    match parseMonTok r1 with
    | none => none
    | some (m, r2) =>
      match r2 with
      | [a, b] =>
        if isDig a && isDig b then
          let yy := 10 * digVal a + digVal b
          let y := if yy ≤ 68 then 2000 + yy else 1900 + yy
          if d ≤ daysInMonth y m then some (y, m, d) else none
        else none
      | _ => none

/-- `datetime.strptime(s, "%d%b%Y")`: day, month abbreviation, then exactly
four final digits; `datetime` additionally requires `year >= 1`. -/
def strptimeDbY (l : List Char) : Option (Nat × Nat × Nat) :=
  match parseDayTok l with
  | none => none
  | some (d, r1) =>
    match parseMonTok r1 with
    | none => none
    | some (m, r2) =>
      match r2 with
      | [a, b, c, e] =>
        if isDig a && isDig b && isDig c && isDig e then
          let y := 1000 * digVal a + 100 * digVal b + 10 * digVal c + digVal e
          if 1 ≤ y && d ≤ daysInMonth y m then some (y, m, d) else none
        else none
      | _ => none

/-- Zero-pad a number to two decimal digits (`strftime` `%m` / `%d`). -/
def pad2 (n : Nat) : String :=
  if n < 10 then "0" ++ toString n else toString n

/-- `dt.strftime("%Y-%m-%d")`.  glibc's `%Y` prints the year without
padding (all years reachable through the bulletin formats have four
digits anyway). -/
def isoFormat (y m d : Nat) : String := toString y ++ "-" ++ pad2 m ++ "-" ++ pad2 d

/-- `parse_date` from `scraper.py`: clean and upper-case; map the sentinels
`C`/`CURRENT` and `U`/`UNAVAILABLE`; otherwise try `%d%b%y` then `%d%b%Y`,
formatting a success as an ISO date; otherwise return the cleaned
upper-cased text unchanged. -/
def parse_date (date_str : String) : String :=
  let s := upperStr (_clean_text date_str)
  if s = "C" || s = "CURRENT" then "C"
  else if s = "U" || s = "UNAVAILABLE" then "U"
  else
    match strptimeDby s.data with
    | some (y, m, d) => isoFormat y m d
    | none =>
      match strptimeDbY s.data with
      | some (y, m, d) => isoFormat y m d
      | none => s

/-! ## Fiscal year and bulletin URL -/

def BASE_URL : String := "https://travel.state.gov"

/-- `MONTH_NAMES` from `scraper.py`. -/
def MONTH_NAMES : List String :=
  ["january", "february", "march", "april", "may", "june",
   "july", "august", "september", "october", "november", "december"]

/-- `get_fiscal_year`: the federal fiscal year runs October-September. -/
def get_fiscal_year (year month : Nat) : Nat :=
  if month ≥ 10 then year + 1 else year

/-- `get_bulletin_url`: URL of the bulletin for calendar `(year, month)`. -/
def get_bulletin_url (year month : Nat) : String :=
  let fy := get_fiscal_year year month
  let month_name := MONTH_NAMES.getD (month - 1) ""
  BASE_URL ++ "/content/travel/en/legal/visa-law0/visa-bulletin" ++
    "/" ++ toString fy ++ "/visa-bulletin-for-" ++ month_name ++ "-" ++
    toString year ++ ".html"

/-! ## Country and category normalization -/

/-- `re.sub(r"(\w)-\s*(\w)", r"\1\2", ·)`: join hyphen-broken words.  The
scan is left-to-right and non-overlapping: after a replacement it resumes
after the second word character; on a failed match it advances one
character.  The fuel argument bounds the recursion; every step consumes at
least one character, so the list length is sufficient fuel. -/
def dehyphFuel : Nat → List Char → List Char
  | 0, cs => cs
  | _ + 1, [] => []
  | f + 1, a :: rest =>
    if isPyWord a then
      match rest with
      | '-' :: rest2 =>
        match rest2.dropWhile isPySpace with
        | b :: rest4 =>
          if isPyWord b then a :: b :: dehyphFuel f rest4
          else a :: dehyphFuel f rest
        | [] => a :: dehyphFuel f rest
      | _ => a :: dehyphFuel f rest
    else a :: dehyphFuel f rest

/-- String version of the hyphen-joining substitution. -/
def dehyphenate (s : String) : String := String.mk (dehyphFuel s.data.length s.data)

/-- `normalize_country` from `scraper.py`. -/
def normalize_country (raw : String) : String :=
  let cleaned := _clean_text raw
  let dehyphenated := dehyphenate cleaned
  let lowered := lowerStr dehyphenated
  if strHas "chargeability" lowered || (strHas "charge" lowered && strHas "except" lowered) then
    "All Chargeability Areas"
  else if strHas "china" lowered then "China"
  else if strHas "india" lowered then "India"
  else if strHas "mexico" lowered then "Mexico"
  else if strHas "philip" lowered then "Philippines"
  else
    let abb := String.mk (stripEnds (upperStr cleaned).data)
    if abb = "CH" then "China"
    else if abb = "IN" then "India"
    else if abb = "ME" then "Mexico"
    else if abb = "MX" then "Mexico"
    else if abb = "PH" then "Philippines"
    else cleaned

/-- `re.sub(r"\*+$", "", ·).strip()`: drop one trailing run of asterisks,
then strip. -/
def stripTrailingAst (s : String) : String :=
  String.mk (stripEnds ((s.data.reverse.dropWhile (fun c => c = '*')).reverse))

/-- `normalize_category` from `scraper.py`. -/
def normalize_category (raw visa_type : String) : String :=
  let cleaned := stripTrailingAst (_clean_text raw)
  let dehyphenated := dehyphenate cleaned
  let lowered := lowerStr dehyphenated
  if visa_type = "family" then
    if lowered = "f1" || lowered = "1st" || lowered = "1st preference" then "F1"
    else if lowered = "f2a" || lowered = "2a" then "F2A"
    else if lowered = "f2b" || lowered = "2b" then "F2B"
    else if lowered = "f3" || lowered = "3rd" || lowered = "3rd preference" then "F3"
    else if lowered = "f4" || lowered = "4th" || lowered = "4th preference" then "F4"
    else if cleaned.length ≤ 4 then upperStr cleaned
    else cleaned
  else
    if lowered = "1st" || lowered = "1st preference" then "EB-1"
    else if lowered = "2nd" || lowered = "2nd preference" then "EB-2"
    else if lowered = "3rd" || lowered = "3rd preference" then "EB-3"
    else if strHas "other worker" lowered then "EB-3 Other Workers"
    else if lowered = "4th" || lowered = "4th preference" then "EB-4"
    else if strHas "religious worker" lowered ||
            (strHas "religious" lowered && strHas "worker" lowered) then
      "EB-4 Religious Workers"
    else if strHas "5th" lowered || strHas "fifth" lowered then
      if strHas "unreserved" lowered then "EB-5 Unreserved"
      else if strHas "rural" lowered then "EB-5 Rural"
      else if strHas "high unemployment" lowered then "EB-5 High Unemployment"
      else if strHas "infrastructure" lowered then "EB-5 Infrastructure"
      else if strHas "targeted" lowered || strHas "regional" lowered then "EB-5 Targeted"
      else "EB-5"
    else if strHas "targeted" lowered && strHas "employment" lowered then "EB-5 Targeted"
    else if strHas "schedule a" lowered then "Schedule A Workers"
    else if strHas "iraqi" lowered || strHas "afghani" lowered || strHas "translator" lowered then
      "Iraqi/Afghani Translators"
    else cleaned

/-! ## The bulletin parser -/

/-- A table row, as the list of its cells' `get_text(strip=True)` texts. -/
abbrev HtmlRow := List String

/-- A table, as its list of `tr` rows (the first row is the header). -/
abbrev HtmlTable := List HtmlRow

/-- A canonical record emitted by the parser. -/
structure BulletinRecord where
  table_type : String
  visa_type : String
  category : String
  country : String
  priority_date : String
deriving DecidableEq, Repr

/-- `_identify_table_by_header` from `scraper.py`. -/
def _identify_table_by_header (header_text : String) : Option String :=
  let h := lowerStr (_clean_text header_text)
  if strHas "family" h then some "family"
  else if strHas "employment" h then some "employment"
  else none

/-- The structural gate of the per-table loop of `parse_bulletin`: a table
with fewer than two rows, or an empty header row, identifies as `none`, as
does an unrecognized first header cell; otherwise the table's visa type. -/
def tableVisaType (rows : HtmlTable) : Option String :=
  if rows.length < 2 then none
  else
    match rows with
    | [] => none
    | header_cells :: _ =>
      match header_cells with
      | [] => none
      | first_header :: _ => _identify_table_by_header first_header

/-- The ordered country list of a table: normalize every header cell after
the first and keep the non-empty results (`if country:`). -/
def tableCountries (header_cells : List String) : List String :=
  ((header_cells.drop 1).map normalize_country).filter (fun c => c ≠ "")

/-- The inner cell loop of `parse_bulletin`: pair data cells positionally
with the country list, stopping when the countries are exhausted and
skipping empty cells. -/
def pairCells (table_type visa_type category : String) :
    List String → List String → List BulletinRecord
  | _, [] => []
  | [], _ => []
  | cell :: cells, country :: countries =>
    (if cell = "" then [] else
      [⟨table_type, visa_type, category, country, parse_date cell⟩]) ++
    pairCells table_type visa_type category cells countries

/-- The data-row loop of `parse_bulletin`: rows with fewer than two cells
or an empty first cell are skipped; otherwise the first cell is the raw
category and the remaining cells are paired with the countries. -/
def parseRows (table_type visa_type : String) (countries : List String)
    (dataRows : List HtmlRow) : List BulletinRecord :=
  dataRows.flatMap (fun cells =>
    if cells.length < 2 then []
    else
      match cells with
      | [] => []
      | c0 :: rest =>
        if c0 = "" then []
        else pairCells table_type visa_type (normalize_category c0 visa_type) rest countries)

/-- The table loop of `parse_bulletin`, threading the per-visa-type counters
`seen_count = {family, employment}`.  A table that passes the structural
gate increments its counter even when its country list turns out empty. -/
def parseTables (fam emp : Nat) : List HtmlTable → List BulletinRecord
  | [] => []
  | rows :: rest =>
    match tableVisaType rows with
    | none => parseTables fam emp rest
    | some vt =>
      let n := (if vt = "family" then fam else emp) + 1
      let table_type := if n = 1 then "final_action" else "filing"
      let fam' := if vt = "family" then n else fam
      let emp' := if vt = "family" then emp else n
      let countries := tableCountries (rows.headD [])
      (if countries = [] then [] else parseRows table_type vt countries (rows.drop 1)) ++
      parseTables fam' emp' rest

/-- `parse_bulletin` from `scraper.py`, over the list of tables delivered
by BeautifulSoup. -/
def parse_bulletin (tables : List HtmlTable) : List BulletinRecord :=
  parseTables 0 0 tables

/-! ## Month-range generation -/

/-- The loop body of `generate_month_range`: while
`(y, m) <= (end_year, end_month)` lexicographically, yield and step to the
next calendar month.  Every iteration makes progress, so the explicit fuel
only needs to dominate the (linear) number of iterations. -/
def genMonths : Nat → Nat → Nat → Nat → Nat → List (Nat × Nat)
  | 0, _, _, _, _ => []
  | f + 1, y, m, end_year, end_month =>
    if y < end_year ∨ (y = end_year ∧ m ≤ end_month) then
      (y, m) ::
        (if m + 1 > 12 then genMonths f (y + 1) 1 end_year end_month
         else genMonths f y (m + 1) end_year end_month)
    else []

/-- `generate_month_range` from `scraper.py`: all `(year, month)` pairs from
the start bound to the end bound inclusive. -/
def generate_month_range (start_year start_month end_year end_month : Nat) :
    List (Nat × Nat) :=
  genMonths ((end_year + 1 - start_year) * 14 + 14) start_year start_month end_year end_month

/-! ## Derived views used by the theorems -/

/-- The `lowered` intermediate of `normalize_country`. -/
def countryLowered (raw : String) : String :=
  lowerStr (dehyphenate (_clean_text raw))

/-- The `abbrev` intermediate of `normalize_country`
(`cleaned.upper().strip()`, computed from the cleaned text, hyphens kept). -/
def countryAbb (raw : String) : String :=
  String.mk (stripEnds (upperStr (_clean_text raw)).data)

/-- The `cleaned` intermediate of `normalize_category` (cleaned text with
one trailing run of asterisks removed). -/
def categoryCleaned (raw : String) : String :=
  stripTrailingAst (_clean_text raw)

/-- The `lowered` intermediate of `normalize_category`. -/
def categoryLowered (raw : String) : String :=
  lowerStr (dehyphenate (categoryCleaned raw))

/-- Index of a calendar month on the infinite month axis (month 1-12). -/
def monthIdx (y m : Nat) : Nat := 12 * y + (m - 1)

/-- The specification's description of the month-range generator: the
months whose indices lie between the two bounds inclusive, listed in
increasing order, each decoded back to a `(year, month)` pair.  Stated
separately from `generate_month_range` (which embeds the source's loop) so
that the two can be compared. -/
def month_range_spec (start_year start_month end_year end_month : Nat) : List (Nat × Nat) :=
  (List.range (monthIdx end_year end_month + 1 - monthIdx start_year start_month)).map
    (fun i =>
      ((monthIdx start_year start_month + i) / 12,
       (monthIdx start_year start_month + i) % 12 + 1))

/-- The records a single table contributes to `parse_bulletin` once its
`table_type` has been fixed by the per-visa-type counters. -/
def tableContribution (rows : HtmlTable) (table_type : String) : List BulletinRecord :=
  match tableVisaType rows with
  | none => []
  | some vt =>
    let countries := tableCountries (rows.headD [])
    if countries = [] then [] else parseRows table_type vt countries (rows.drop 1)

/-- How many tables before position `i` identify with the same visa type
as the table at position `i`. -/
def countMatchesBefore (tables : List HtmlTable) (i : Nat) : Nat :=
  (tables.take i).countP
    (fun t => decide (tableVisaType t = tableVisaType (tables.getD i [])))

/-- The counter value a visa type starts from, given the two counters. -/
def baseCount (fam emp : Nat) : Option String → Nat
  | some vt => if vt = "family" then fam else emp
  | none => 0

/-- Whitespace discipline after collapsing: every whitespace character of
the list is a plain ASCII space. -/
abbrev wsSingle (l : List Char) : Prop :=
  ∀ c ∈ l, isPySpace c = true → c = ' '

/-- No two adjacent whitespace characters. -/
abbrev noTwoWS (l : List Char) : Prop :=
  List.Chain' (fun a b => ¬(isPySpace a = true ∧ isPySpace b = true)) l

/-! ## Theorems -/

/-- C6: `get_fiscal_year` returns `year + 1` exactly when `month ≥ 10` and
`year` otherwise (so `get_fiscal_year 2025 10 = 2026` and
`get_fiscal_year 2025 9 = 2025`), and `get_bulletin_url` builds the locator
embedding exactly that fiscal year, the lowercase full month name and the
unchanged calendar year. -/
theorem fiscal_year_and_url_embedding :
    (∀ year month : Nat, get_fiscal_year year month = if 10 ≤ month then year + 1 else year) ∧
    get_fiscal_year 2025 10 = 2026 ∧ get_fiscal_year 2025 9 = 2025 ∧
    (∀ year month : Nat,
      get_bulletin_url year month =
        BASE_URL ++ "/content/travel/en/legal/visa-law0/visa-bulletin" ++ "/" ++
        toString (get_fiscal_year year month) ++ "/visa-bulletin-for-" ++
        MONTH_NAMES.getD (month - 1) "" ++ "-" ++ toString year ++ ".html") ∧
    get_bulletin_url 2025 10 =
      "https://travel.state.gov/content/travel/en/legal/visa-law0/visa-bulletin/2026/visa-bulletin-for-october-2025.html" ∧
    get_bulletin_url 2025 9 =
      "https://travel.state.gov/content/travel/en/legal/visa-law0/visa-bulletin/2025/visa-bulletin-for-september-2025.html" :=
  ⟨fun _ _ => rfl, rfl, rfl, fun _ _ => rfl, rfl, rfl⟩

/-- C2: `parse_date` cleans and upper-cases its input; the sentinels
`C`/`CURRENT` and `U`/`UNAVAILABLE` are recognized case-insensitively and
returned as `"C"`/`"U"`; otherwise the two-digit-year format `%d%b%y` is
tried first, then the four-digit-year `%d%b%Y`, the success being returned
as an ISO date string; otherwise the cleaned upper-cased input is returned
unchanged (the function is total, so no exception can escape).  The four
examples of the specification hold. -/
theorem parse_date_cascade :
    (∀ s : String,
      upperStr (_clean_text s) = "C" ∨ upperStr (_clean_text s) = "CURRENT" →
      parse_date s = "C") ∧
    (∀ s : String,
      upperStr (_clean_text s) = "U" ∨ upperStr (_clean_text s) = "UNAVAILABLE" →
      parse_date s = "U") ∧
    (∀ (s : String) (y m d : Nat),
      strptimeDby (upperStr (_clean_text s)).data = some (y, m, d) →
      parse_date s = isoFormat y m d) ∧
    (∀ (s : String) (y m d : Nat),
      strptimeDby (upperStr (_clean_text s)).data = none →
      strptimeDbY (upperStr (_clean_text s)).data = some (y, m, d) →
      parse_date s = isoFormat y m d) ∧
    (∀ s : String,
      upperStr (_clean_text s) ≠ "C" → upperStr (_clean_text s) ≠ "CURRENT" →
      upperStr (_clean_text s) ≠ "U" → upperStr (_clean_text s) ≠ "UNAVAILABLE" →
      strptimeDby (upperStr (_clean_text s)).data = none →
      strptimeDbY (upperStr (_clean_text s)).data = none →
      parse_date s = upperStr (_clean_text s)) ∧
    parse_date "01FEB23" = "2023-02-01" ∧ parse_date "c" = "C" ∧
    parse_date "U" = "U" ∧ parse_date "garbage" = "GARBAGE" := by
  refine ⟨?_, ?_, ?_, ?_, ?_, by decide, by decide, by decide, by decide⟩
  · intro s h
    rcases h with h | h <;> simp [parse_date, h]
  · intro s h
    have hc : upperStr (_clean_text s) ≠ "C" := by
      rcases h with h | h <;> rw [h] <;> decide
    have hcur : upperStr (_clean_text s) ≠ "CURRENT" := by
      rcases h with h | h <;> rw [h] <;> decide
    rcases h with h | h <;> simp [parse_date, h, hc, hcur]
  · intro s y m d h
    have hc : ∀ t : String, t = "C" ∨ t = "CURRENT" ∨ t = "U" ∨ t = "UNAVAILABLE" →
        strptimeDby t.data = none := by
      rintro t (rfl | rfl | rfl | rfl) <;> decide
    have h1 : upperStr (_clean_text s) ≠ "C" := by
      intro e; rw [hc _ (Or.inl e)] at h; cases h
    have h2 : upperStr (_clean_text s) ≠ "CURRENT" := by
      intro e; rw [hc _ (Or.inr (Or.inl e))] at h; cases h
    have h3 : upperStr (_clean_text s) ≠ "U" := by
      intro e; rw [hc _ (Or.inr (Or.inr (Or.inl e)))] at h; cases h
    have h4 : upperStr (_clean_text s) ≠ "UNAVAILABLE" := by
      intro e; rw [hc _ (Or.inr (Or.inr (Or.inr e)))] at h; cases h
    simp [parse_date, h, h1, h2, h3, h4]
  · intro s y m d h0 h
    have hc : ∀ t : String, t = "C" ∨ t = "CURRENT" ∨ t = "U" ∨ t = "UNAVAILABLE" →
        strptimeDbY t.data = none := by
      rintro t (rfl | rfl | rfl | rfl) <;> decide
    have h1 : upperStr (_clean_text s) ≠ "C" := by
      intro e; rw [hc _ (Or.inl e)] at h; cases h
    have h2 : upperStr (_clean_text s) ≠ "CURRENT" := by
      intro e; rw [hc _ (Or.inr (Or.inl e))] at h; cases h
    have h3 : upperStr (_clean_text s) ≠ "U" := by
      intro e; rw [hc _ (Or.inr (Or.inr (Or.inl e)))] at h; cases h
    have h4 : upperStr (_clean_text s) ≠ "UNAVAILABLE" := by
      intro e; rw [hc _ (Or.inr (Or.inr (Or.inr e)))] at h; cases h
    simp [parse_date, h0, h, h1, h2, h3, h4]
  · intro s h1 h2 h3 h4 h5 h6
    simp [parse_date, h1, h2, h3, h4, h5, h6]

/-- Witness for `parse_date_cascade`: the hypotheses are discharged at
concrete inputs for each branch of the cascade. -/
theorem parse_date_cascade_witness :
    parse_date "current" = "C" ∧ parse_date "Unavailable" = "U" ∧
    parse_date "15oct24" = isoFormat 2024 10 15 ∧
    parse_date "15oct2024" = isoFormat 2024 10 15 ∧
    parse_date "tbd" = "TBD" :=
  ⟨parse_date_cascade.1 "current" (Or.inr (by decide)),
   parse_date_cascade.2.1 "Unavailable" (Or.inr (by decide)),
   parse_date_cascade.2.2.1 "15oct24" 2024 10 15 (by decide),
   parse_date_cascade.2.2.2.1 "15oct2024" 2024 10 15 (by decide) (by decide),
   parse_date_cascade.2.2.2.2.1 "tbd" (by decide) (by decide) (by decide) (by decide)
     (by decide) (by decide)⟩

/-- C10: every token accepted through the `%d%b%y` format resolves its
two-digit year with the fixed CPython pivot: the resulting calendar year
always lies in 1969-2068, and it lies in 2000-2068 exactly when the
two-digit value was at most 68 (so 69-99 become 1969-1999 and 00-68 become
2000-2068); hence `parse_date "01FEB69" = "1969-02-01"` and
`parse_date "01FEB68" = "2068-02-01"`, and no calendar year outside
1969-2068 is expressible by a two-digit token. -/
theorem two_digit_year_pivot :
    (∀ (l : List Char) (y m d : Nat), strptimeDby l = some (y, m, d) →
      1969 ≤ y ∧ y ≤ 2068 ∧ (y % 100 ≤ 68 ↔ 2000 ≤ y)) ∧
    parse_date "01FEB69" = "1969-02-01" ∧ parse_date "01FEB68" = "2068-02-01" := by
  refine ⟨?_, by decide, by decide⟩
  intro l y m d h
  unfold strptimeDby at h
  split at h
  · cases h
  · split at h
    · cases h
    · split at h
      · rename_i a b
        split at h
        · rename_i hdig
          simp only [isDig, Bool.and_eq_true, decide_eq_true_eq] at hdig
          obtain ⟨⟨ha1, ha2⟩, hb1, hb2⟩ := hdig
          simp only at h
          split at h <;> rename_i hpiv <;> split at h <;> cases h <;>
            simp only [digVal] at hpiv ⊢ <;> omega
        · cases h
      · cases h

/-- Witness for `two_digit_year_pivot`: the pivot bound theorem applied to
the concrete accepted token `01FEB99`. -/
theorem two_digit_year_pivot_witness :
    1969 ≤ 1999 ∧ 1999 ≤ 2068 ∧ (1999 % 100 ≤ 68 ↔ 2000 ≤ 1999) :=
  two_digit_year_pivot.1 "01FEB99".data 1999 2 1 (by decide)

/-- The fuelled loop of `generate_month_range` computes the index interval
between the two month indices, decoded month by month, provided the fuel
dominates the number of remaining iterations. -/
theorem genMonths_eq_spec (ey em : Nat) (hem1 : 1 ≤ em) (hem2 : em ≤ 12) :
    ∀ (f y m : Nat), 1 ≤ m → m ≤ 12 →
      monthIdx ey em + 2 - monthIdx y m ≤ f →
      genMonths f y m ey em =
        (List.range (monthIdx ey em + 1 - monthIdx y m)).map
          (fun i => ((monthIdx y m + i) / 12, (monthIdx y m + i) % 12 + 1)) := by
  intro f
  induction f with
  | zero =>
    intro y m hm1 hm2 hf
    have h0 : monthIdx ey em + 1 - monthIdx y m = 0 := by
      simp only [monthIdx] at hf ⊢; omega
    simp [genMonths, h0]
  | succ f ih =>
    intro y m hm1 hm2 hf
    by_cases hc : y < ey ∨ (y = ey ∧ m ≤ em)
    · have hab : monthIdx y m ≤ monthIdx ey em := by
        simp only [monthIdx]; omega
      have hn : monthIdx ey em + 1 - monthIdx y m =
          (monthIdx ey em - monthIdx y m) + 1 := by omega
      rw [hn, List.range_succ_eq_map, List.map_cons, List.map_map]
      simp only [genMonths, if_pos hc]
      by_cases h12 : m + 1 > 12
      · have hm' : m = 12 := by omega
        rw [if_pos h12, ih (y + 1) 1 (by omega) (by omega)
          (by simp only [monthIdx] at hf ⊢; omega)]
        have ha' : monthIdx (y + 1) 1 = monthIdx y m + 1 := by
          simp only [monthIdx]; omega
        rw [ha',
          show monthIdx ey em + 1 - (monthIdx y m + 1) =
            monthIdx ey em - monthIdx y m from by omega]
        congr 1
        · simp only [monthIdx, Prod.mk.injEq]
          refine ⟨?_, ?_⟩ <;> omega
        · exact List.map_congr_left fun i _ => by
            simp only [Function.comp, Nat.succ_eq_add_one]
            rw [show monthIdx y m + 1 + i = monthIdx y m + (i + 1) from by omega]
      · rw [if_neg h12, ih y (m + 1) (by omega) (by omega)
          (by simp only [monthIdx] at hf ⊢; omega)]
        have ha' : monthIdx y (m + 1) = monthIdx y m + 1 := by
          simp only [monthIdx]; omega
        rw [ha',
          show monthIdx ey em + 1 - (monthIdx y m + 1) =
            monthIdx ey em - monthIdx y m from by omega]
        congr 1
        · simp only [monthIdx, Prod.mk.injEq]
          refine ⟨?_, ?_⟩ <;> omega
        · exact List.map_congr_left fun i _ => by
            simp only [Function.comp, Nat.succ_eq_add_one]
            rw [show monthIdx y m + 1 + i = monthIdx y m + (i + 1) from by omega]
    · have h0 : monthIdx ey em + 1 - monthIdx y m = 0 := by
        simp only [monthIdx]; omega
      simp [genMonths, if_neg hc, h0]

/-- C5: `generate_month_range` yields the months between its bounds
inclusive (equal to the index-interval description `month_range_spec`), is
empty when the start bound is strictly after the end bound, starts at the
start bound and ends at the end bound otherwise, and consecutive elements
always step by one calendar month with month 12 wrapping to month 1 of the
next year.  The two examples of the specification hold. -/
theorem generate_month_range_correct :
    (∀ start_year start_month end_year end_month : Nat,
      1 ≤ start_month → start_month ≤ 12 → 1 ≤ end_month → end_month ≤ 12 →
      generate_month_range start_year start_month end_year end_month =
        month_range_spec start_year start_month end_year end_month ∧
      ((end_year < start_year ∨ (end_year = start_year ∧ end_month < start_month)) →
        generate_month_range start_year start_month end_year end_month = []) ∧
      ((start_year < end_year ∨ (start_year = end_year ∧ start_month ≤ end_month)) →
        (generate_month_range start_year start_month end_year end_month).head? =
          some (start_year, start_month) ∧
        (generate_month_range start_year start_month end_year end_month).getLast? =
          some (end_year, end_month)) ∧
      List.Chain'
        (fun p q : Nat × Nat => q = if p.2 = 12 then (p.1 + 1, 1) else (p.1, p.2 + 1))
        (generate_month_range start_year start_month end_year end_month)) ∧
    generate_month_range 2024 11 2025 2 = [(2024, 11), (2024, 12), (2025, 1), (2025, 2)] ∧
    generate_month_range 2025 3 2025 1 = [] := by
  refine ⟨?_, by decide, by decide⟩
  intro sy sm ey em h1 h2 h3 h4
  have heq : generate_month_range sy sm ey em = month_range_spec sy sm ey em := by
    unfold generate_month_range month_range_spec
    exact genMonths_eq_spec ey em h3 h4 _ sy sm h1 h2 (by simp only [monthIdx]; omega)
  refine ⟨heq, ?_, ?_, ?_⟩
  · intro hlt
    rw [heq]
    unfold month_range_spec
    rw [show monthIdx ey em + 1 - monthIdx sy sm = 0 from by
      simp only [monthIdx]; omega]
    rfl
  · intro hle
    have hab : monthIdx sy sm ≤ monthIdx ey em := by simp only [monthIdx]; omega
    rw [heq]
    unfold month_range_spec
    rw [show monthIdx ey em + 1 - monthIdx sy sm =
        (monthIdx ey em - monthIdx sy sm) + 1 from by omega]
    constructor
    · rw [List.range_succ_eq_map, List.map_cons, List.head?_cons,
        Option.some_inj, Prod.mk.injEq]
      simp only [monthIdx]
      refine ⟨?_, ?_⟩ <;> omega
    · rw [List.range_succ, List.map_append, List.map_cons, List.map_nil,
        List.getLast?_concat, Option.some_inj, Prod.mk.injEq]
      simp only [monthIdx]
      refine ⟨?_, ?_⟩ <;> omega
  · rw [heq]
    unfold month_range_spec
    rw [List.chain'_map]
    rcases hn : monthIdx ey em + 1 - monthIdx sy sm with _ | n
    · simp
    · rw [List.chain'_range_succ]
      intro i hi
      simp only [Nat.succ_eq_add_one]
      split_ifs with hc2 <;> rw [Prod.mk.injEq] <;> refine ⟨?_, ?_⟩ <;> omega

/-- Witness for `generate_month_range_correct`: the bound hypotheses are
discharged at the specification's own example range. -/
theorem generate_month_range_correct_witness :
    generate_month_range 2024 11 2025 2 = month_range_spec 2024 11 2025 2 :=
  ((generate_month_range_correct.1 2024 11 2025 2 (by decide) (by decide)
    (by decide) (by decide)).1)

/-- Every whitespace character that `collapseWS` emits is a plain space. -/
theorem wsSingle_collapseWS : ∀ (b : Bool) (l : List Char), wsSingle (collapseWS b l)
  | b, [] => by intro c hc _; simp [collapseWS] at hc
  | b, c :: cs => by
    intro x hx hws
    by_cases hc : isPySpace c
    · cases b with
      | false =>
        rw [show collapseWS false (c :: cs) = ' ' :: collapseWS true cs from by
          simp [collapseWS, hc]] at hx
        rcases List.mem_cons.mp hx with rfl | hx'
        · rfl
        · exact wsSingle_collapseWS true cs x hx' hws
      | true =>
        rw [show collapseWS true (c :: cs) = collapseWS true cs from by
          simp [collapseWS, hc]] at hx
        exact wsSingle_collapseWS true cs x hx hws
    · rw [show collapseWS b (c :: cs) = c :: collapseWS false cs from by
        cases b <;> simp [collapseWS, hc]] at hx
      rcases List.mem_cons.mp hx with rfl | hx'
      · exact absurd hws (by simp [hc])
      · exact wsSingle_collapseWS false cs x hx' hws

/-- `collapseWS` never emits two adjacent whitespace characters; moreover in
the in-run state the first emitted character is never whitespace. -/
theorem noTwoWS_collapseWS : ∀ l : List Char,
    noTwoWS (collapseWS false l) ∧ noTwoWS (collapseWS true l) ∧
      ∀ x ∈ (collapseWS true l).head?, isPySpace x = false := by
  intro l
  induction l with
  | nil =>
    refine ⟨List.chain'_nil, List.chain'_nil, ?_⟩
    intro x hx; simp [collapseWS] at hx
  | cons c cs ih =>
    obtain ⟨ih1, ih2, ih3⟩ := ih
    by_cases hc : isPySpace c
    · have e1 : collapseWS false (c :: cs) = ' ' :: collapseWS true cs := by
        simp [collapseWS, hc]
      have e2 : collapseWS true (c :: cs) = collapseWS true cs := by
        simp [collapseWS, hc]
      refine ⟨?_, ?_, ?_⟩
      · rw [e1]
        refine List.chain'_cons'.mpr ⟨?_, ih2⟩
        intro y hy
        have := ih3 y hy
        simp [this]
      · rw [e2]; exact ih2
      · rw [e2]; exact ih3
    · have e1 : collapseWS false (c :: cs) = c :: collapseWS false cs := by
        simp [collapseWS, hc]
      have e2 : collapseWS true (c :: cs) = c :: collapseWS false cs := by
        simp [collapseWS, hc]
      have hhead : ∀ y ∈ (collapseWS false cs).head?,
          ¬(isPySpace c = true ∧ isPySpace y = true) := by
        intro y _ h
        exact hc h.1
      refine ⟨?_, ?_, ?_⟩
      · rw [e1]; exact List.chain'_cons'.mpr ⟨hhead, ih1⟩
      · rw [e2]; exact List.chain'_cons'.mpr ⟨hhead, ih1⟩
      · rw [e2]
        intro x hx
        rw [List.head?_cons, Option.mem_some_iff] at hx
        subst hx
        simpa using hc

/-- Characters emitted by `collapseWS` come from the input or are spaces. -/
theorem mem_collapseWS : ∀ (b : Bool) (l : List Char) (c : Char),
    c ∈ collapseWS b l → c ∈ l ∨ c = ' '
  | b, [], c => by intro h; simp [collapseWS] at h
  | b, a :: as, c => by
    intro h
    by_cases ha : isPySpace a
    · cases b with
      | false =>
        rw [show collapseWS false (a :: as) = ' ' :: collapseWS true as from by
          simp [collapseWS, ha]] at h
        rcases List.mem_cons.mp h with rfl | h'
        · exact Or.inr rfl
        · rcases mem_collapseWS true as c h' with h'' | h''
          · exact Or.inl (List.mem_cons_of_mem _ h'')
          · exact Or.inr h''
      | true =>
        rw [show collapseWS true (a :: as) = collapseWS true as from by
          simp [collapseWS, ha]] at h
        rcases mem_collapseWS true as c h with h'' | h''
        · exact Or.inl (List.mem_cons_of_mem _ h'')
        · exact Or.inr h''
    · rw [show collapseWS b (a :: as) = a :: collapseWS false as from by
        cases b <;> simp [collapseWS, ha]] at h
      rcases List.mem_cons.mp h with rfl | h'
      · exact Or.inl (List.mem_cons_self _ _)
      · rcases mem_collapseWS false as c h' with h'' | h''
        · exact Or.inl (List.mem_cons_of_mem _ h'')
        · exact Or.inr h''

/-- On a list whose whitespace is already collapsed, `collapseWS` is the
identity (in the in-run state provided the head is not whitespace). -/
theorem collapseWS_eq_self : ∀ l : List Char, wsSingle l → noTwoWS l →
    collapseWS false l = l ∧
      ((∀ x ∈ l.head?, isPySpace x = false) → collapseWS true l = l) := by
  intro l
  induction l with
  | nil => exact fun _ _ => ⟨rfl, fun _ => rfl⟩
  | cons c cs ih =>
    intro hws hnt
    have hws' : wsSingle cs := fun x hx => hws x (List.mem_cons_of_mem _ hx)
    have hnt' : noTwoWS cs := (List.chain'_cons'.mp hnt).2
    obtain ⟨ihf, iht⟩ := ih hws' hnt'
    by_cases hc : isPySpace c = true
    · have hcsp : c = ' ' := hws c (List.mem_cons_self _ _) hc
      have hhd : ∀ x ∈ cs.head?, isPySpace x = false := by
        intro x hx
        cases hxw : isPySpace x with
        | false => rfl
        | true => exact absurd ⟨hc, hxw⟩ ((List.chain'_cons'.mp hnt).1 x hx)
      constructor
      · rw [show collapseWS false (c :: cs) = ' ' :: collapseWS true cs from by
          simp [collapseWS, hc], iht hhd, hcsp]
      · intro hx
        exact absurd hc (by simpa using hx c (by simp))
    · constructor
      · rw [show collapseWS false (c :: cs) = c :: collapseWS false cs from by
          simp [collapseWS, hc], ihf]
      · intro _
        rw [show collapseWS true (c :: cs) = c :: collapseWS false cs from by
          simp [collapseWS, hc], ihf]

/-- Dropping trailing whitespace keeps a prefix of the list. -/
theorem rdropWS_append_takeWhile (l : List Char) :
    rdropWS l ++ (l.reverse.takeWhile isPySpace).reverse = l := by
  rw [rdropWS, ← List.reverse_append, List.takeWhile_append_dropWhile,
    List.reverse_reverse]

/-- The head surviving `dropWhile` fails the predicate. -/
theorem head?_dropWhile_false (p : Char → Bool) (l : List Char) :
    ∀ x ∈ (l.dropWhile p).head?, p x = false := by
  intro x hx
  have h := List.head?_dropWhile_not p l
  cases hd : (List.dropWhile p l).head? with
  | none => rw [hd] at hx; cases hx
  | some y =>
    rw [hd] at hx h
    rw [Option.mem_some_iff] at hx
    subst hx
    exact h

/-- `dropWhile` is the identity when the head fails the predicate. -/
theorem dropWhile_eq_self_of_head (p : Char → Bool) (l : List Char)
    (h : ∀ x ∈ l.head?, p x = false) : l.dropWhile p = l := by
  cases l with
  | nil => rfl
  | cons c cs =>
    have := h c (by simp)
    simp [List.dropWhile, this]

/-- C7 counterexample: `_clean_text` is not idempotent.  Removing a soft
hyphen happens after whitespace collapsing, so `"A \u00ad B"` cleans to
`"A  B"` (two spaces), which a second clean collapses to `"A B"`. -/
theorem clean_text_not_idempotent :
    _clean_text (_clean_text "A \u00ad B") ≠ _clean_text "A \u00ad B" := by decide

/-- C7 (amended): `_clean_text` collapses every run of Unicode whitespace,
including no-break spaces, into a single ASCII space
(`_clean_text "A\u00a0\u00a0B" = "A B"`), and it is idempotent on every
input containing no soft hyphen U+00AD; a soft hyphen flanked by whitespace
defeats idempotence because its removal happens after whitespace
collapsing. -/
theorem clean_text_idempotent_without_soft_hyphen :
    (∀ s : String, '\u00ad' ∉ s.data →
      _clean_text (_clean_text s) = _clean_text s) ∧
    _clean_text "A\u00a0\u00a0B" = "A B" := by
  refine ⟨?_, by decide⟩
  intro s hsh
  have hv' : ∀ c ∈ collapseWS false (s.data.map nfkdChar), c ≠ '\u00ad' := by
    intro c hc
    rcases mem_collapseWS _ _ _ hc with h | rfl
    · rcases List.mem_map.mp h with ⟨d, hd, rfl⟩
      intro he
      by_cases hdn : d = '\u00a0'
      · rw [hdn] at he
        exact absurd he (by decide)
      · rw [show nfkdChar d = d from by simp [nfkdChar, hdn]] at he
        exact hsh (he ▸ hd)
    · decide
  have hrm : removeSoftHyphens (collapseWS false (s.data.map nfkdChar)) =
      collapseWS false (s.data.map nfkdChar) :=
    List.filter_eq_self.mpr (by intro a ha; simpa using hv' a ha)
  set v := collapseWS false (s.data.map nfkdChar) with hvdef
  set t := stripEnds v with htdef
  have hv_ws : wsSingle v := wsSingle_collapseWS false _
  have hv_nt : noTwoWS v := (noTwoWS_collapseWS _).1
  have hq : t ++ ((v.dropWhile isPySpace).reverse.takeWhile isPySpace).reverse =
      v.dropWhile isPySpace := by
    rw [htdef, stripEnds]
    exact rdropWS_append_takeWhile _
  have ht_sub : ∀ c ∈ t, c ∈ v := by
    intro c hc
    have h1 : c ∈ v.dropWhile isPySpace := hq ▸ List.mem_append.mpr (Or.inl hc)
    exact (List.dropWhile_sublist _).subset h1
  have ht_ws : wsSingle t := fun c hc hw => hv_ws c (ht_sub c hc) hw
  have ht_nt : noTwoWS t := by
    have h0 := hv_nt
    rw [← List.takeWhile_append_dropWhile isPySpace v, ← hq] at h0
    exact h0.right_of_append.left_of_append
  have ht_nosh : ∀ c ∈ t, c ≠ '\u00ad' := fun c hc => hv' c (ht_sub c hc)
  have hthead : ∀ x ∈ t.head?, isPySpace x = false := by
    intro x hx
    cases htc : t with
    | nil => rw [htc] at hx; cases hx
    | cons c cs =>
      rw [htc, List.head?_cons, Option.mem_some_iff] at hx
      subst hx
      refine head?_dropWhile_false isPySpace v c ?_
      rw [← hq, htc]
      simp
  have htrev : t.reverse = (v.dropWhile isPySpace).reverse.dropWhile isPySpace := by
    rw [htdef, stripEnds, rdropWS, List.reverse_reverse]
  have htrevhead : ∀ x ∈ t.reverse.head?, isPySpace x = false := by
    rw [htrev]
    exact head?_dropWhile_false _ _
  have hclean1 : _clean_text s = String.mk t := by
    rw [_clean_text, hrm]
  rw [hclean1]
  rw [show _clean_text (String.mk t) =
      String.mk (stripEnds (removeSoftHyphens (collapseWS false (t.map nfkdChar)))) from rfl]
  have hmap : t.map nfkdChar = t := by
    rw [show t.map nfkdChar = t.map id from List.map_congr_left ?_, List.map_id]
    intro c hc
    by_cases hcn : c = '\u00a0'
    · exfalso
      have h1 := ht_ws c hc (by rw [hcn]; decide)
      rw [hcn] at h1
      exact absurd h1 (by decide)
    · simp [nfkdChar, hcn]
  have hcol : collapseWS false t = t := (collapseWS_eq_self t ht_ws ht_nt).1
  have hrm2 : removeSoftHyphens t = t :=
    List.filter_eq_self.mpr (by intro a ha; simpa using ht_nosh a ha)
  have hdw : t.dropWhile isPySpace = t := dropWhile_eq_self_of_head _ _ hthead
  have hrd : rdropWS t = t := by
    rw [rdropWS, dropWhile_eq_self_of_head _ _ htrevhead, List.reverse_reverse]
  rw [hmap, hcol, hrm2, stripEnds, hdw, hrd]

/-- Witness for `clean_text_idempotent_without_soft_hyphen` at a concrete
soft-hyphen-free input. -/
theorem clean_text_idempotent_witness :
    _clean_text (_clean_text "  A\u00a0\u00a0B  ") = _clean_text "  A\u00a0\u00a0B  " :=
  clean_text_idempotent_without_soft_hyphen.1 "  A\u00a0\u00a0B  " (by decide)

/-- C3: `normalize_country` cleans, joins hyphen-broken words, and applies
its keyword rules in priority order on the lowercased text — the
"All Chargeability Areas" rule reads `chargeability ∨ (charge ∧ except)`,
matching Python's `or`/`and` precedence — then falls back to the two-letter
abbreviation table on the upper-cased cleaned text, and finally returns the
cleaned text verbatim.  The two examples of the specification hold. -/
theorem normalize_country_priority :
    (∀ raw : String,
      strHas "chargeability" (countryLowered raw) = true ∨
        (strHas "charge" (countryLowered raw) = true ∧
          strHas "except" (countryLowered raw) = true) →
      normalize_country raw = "All Chargeability Areas") ∧
    (∀ raw : String,
      strHas "chargeability" (countryLowered raw) = false →
      (strHas "charge" (countryLowered raw) && strHas "except" (countryLowered raw)) = false →
      strHas "china" (countryLowered raw) = true →
      normalize_country raw = "China") ∧
    (∀ raw : String,
      strHas "chargeability" (countryLowered raw) = false →
      (strHas "charge" (countryLowered raw) && strHas "except" (countryLowered raw)) = false →
      strHas "china" (countryLowered raw) = false →
      strHas "india" (countryLowered raw) = true →
      normalize_country raw = "India") ∧
    (∀ raw : String,
      strHas "chargeability" (countryLowered raw) = false →
      (strHas "charge" (countryLowered raw) && strHas "except" (countryLowered raw)) = false →
      strHas "china" (countryLowered raw) = false →
      strHas "india" (countryLowered raw) = false →
      strHas "mexico" (countryLowered raw) = true →
      normalize_country raw = "Mexico") ∧
    (∀ raw : String,
      strHas "chargeability" (countryLowered raw) = false →
      (strHas "charge" (countryLowered raw) && strHas "except" (countryLowered raw)) = false →
      strHas "china" (countryLowered raw) = false →
      strHas "india" (countryLowered raw) = false →
      strHas "mexico" (countryLowered raw) = false →
      strHas "philip" (countryLowered raw) = true →
      normalize_country raw = "Philippines") ∧
    (∀ raw : String,
      strHas "chargeability" (countryLowered raw) = false →
      (strHas "charge" (countryLowered raw) && strHas "except" (countryLowered raw)) = false →
      strHas "china" (countryLowered raw) = false →
      strHas "india" (countryLowered raw) = false →
      strHas "mexico" (countryLowered raw) = false →
      strHas "philip" (countryLowered raw) = false →
      (countryAbb raw = "CH" → normalize_country raw = "China") ∧
      (countryAbb raw = "IN" → normalize_country raw = "India") ∧
      (countryAbb raw = "ME" → normalize_country raw = "Mexico") ∧
      (countryAbb raw = "MX" → normalize_country raw = "Mexico") ∧
      (countryAbb raw = "PH" → normalize_country raw = "Philippines")) ∧
    (∀ raw : String,
      strHas "chargeability" (countryLowered raw) = false →
      (strHas "charge" (countryLowered raw) && strHas "except" (countryLowered raw)) = false →
      strHas "china" (countryLowered raw) = false →
      strHas "india" (countryLowered raw) = false →
      strHas "mexico" (countryLowered raw) = false →
      strHas "philip" (countryLowered raw) = false →
      countryAbb raw ≠ "CH" → countryAbb raw ≠ "IN" → countryAbb raw ≠ "ME" →
      countryAbb raw ≠ "MX" → countryAbb raw ≠ "PH" →
      normalize_country raw = _clean_text raw) ∧
    normalize_country "PHILIP-PINES" = "Philippines" ∧
    normalize_country "Unknownland" = "Unknownland" := by
  refine ⟨?_, ?_, ?_, ?_, ?_, ?_, ?_, by decide, by decide⟩
  · intro raw h
    rcases h with h | ⟨h1, h2⟩
    · simp only [countryLowered] at h
      simp [normalize_country, h]
    · simp only [countryLowered] at h1 h2
      simp [normalize_country, h1, h2]
  · intro raw h1 h2 h3
    simp only [countryLowered] at h1 h2 h3
    simp [normalize_country, h1, h2, h3]
  · intro raw h1 h2 h3 h4
    simp only [countryLowered] at h1 h2 h3 h4
    simp [normalize_country, h1, h2, h3, h4]
  · intro raw h1 h2 h3 h4 h5
    simp only [countryLowered] at h1 h2 h3 h4 h5
    simp [normalize_country, h1, h2, h3, h4, h5]
  · intro raw h1 h2 h3 h4 h5 h6
    simp only [countryLowered] at h1 h2 h3 h4 h5 h6
    simp [normalize_country, h1, h2, h3, h4, h5, h6]
  · intro raw h1 h2 h3 h4 h5 h6
    simp only [countryLowered] at h1 h2 h3 h4 h5 h6
    refine ⟨?_, ?_, ?_, ?_, ?_⟩ <;> intro hab <;>
      simp only [countryAbb] at hab <;>
      simp [normalize_country, h1, h2, h3, h4, h5, h6, hab]
  · intro raw h1 h2 h3 h4 h5 h6 n1 n2 n3 n4 n5
    simp only [countryLowered] at h1 h2 h3 h4 h5 h6
    simp only [countryAbb] at n1 n2 n3 n4 n5
    simp [normalize_country, h1, h2, h3, h4, h5, h6, n1, n2, n3, n4, n5]

/-- Witness for `normalize_country_priority` at concrete inputs for the
keyword, abbreviation and passthrough branches. -/
theorem normalize_country_priority_witness :
    normalize_country "All Charge-ability Areas Except Those Listed" =
      "All Chargeability Areas" ∧
    normalize_country "CHINA- mainland born" = "China" ∧
    normalize_country "MX" = "Mexico" ∧
    normalize_country "Vietnam" = "Vietnam" :=
  ⟨normalize_country_priority.1 "All Charge-ability Areas Except Those Listed"
      (Or.inl (by decide)),
   normalize_country_priority.2.1 "CHINA- mainland born" (by decide) (by decide) (by decide),
   (normalize_country_priority.2.2.2.2.2.1 "MX" (by decide) (by decide) (by decide)
      (by decide) (by decide) (by decide)).2.2.2.1 (by decide),
   normalize_country_priority.2.2.2.2.2.2.1 "Vietnam" (by decide) (by decide) (by decide)
      (by decide) (by decide) (by decide) (by decide) (by decide) (by decide)
      (by decide) (by decide)⟩

/-- A string containing a needle cannot equal a string that does not. -/
theorem ne_of_strHas {n l : String} (k : String) (h : strHas n l = true)
    (hk : strHas n k = false) : l ≠ k := by
  intro e
  rw [e] at h
  rw [h] at hk
  cases hk

/-- C4: for `visa_type = "employment"`, `normalize_category` maps the
ordinal labels to `EB-1`..`EB-4`, recognizes the containment rules in the
source's cascade order — "other worker", "religious"+"worker", the EB-5
family keyed by "5th"/"fifth" with its sub-labels in order, the older
"targeted"+"employment" wording, "schedule a", and
"iraqi"/"afghani"/"translator" — and otherwise returns the cleaned text
unchanged.  The two examples of the specification hold. -/
theorem normalize_category_employment_rules :
    normalize_category "1st" "employment" = "EB-1" ∧
    normalize_category "2nd" "employment" = "EB-2" ∧
    normalize_category "3rd" "employment" = "EB-3" ∧
    normalize_category "4th" "employment" = "EB-4" ∧
    normalize_category "Other Workers" "employment" = "EB-3 Other Workers" ∧
    normalize_category "F2A" "family" = "F2A" ∧
    (∀ raw : String,
      strHas "other worker" (categoryLowered raw) = true →
      normalize_category raw "employment" = "EB-3 Other Workers") ∧
    (∀ raw : String,
      strHas "other worker" (categoryLowered raw) = false →
      strHas "religious" (categoryLowered raw) = true →
      strHas "worker" (categoryLowered raw) = true →
      normalize_category raw "employment" = "EB-4 Religious Workers") ∧
    (∀ raw : String,
      strHas "other worker" (categoryLowered raw) = false →
      (strHas "religious worker" (categoryLowered raw) ||
        (strHas "religious" (categoryLowered raw) &&
          strHas "worker" (categoryLowered raw))) = false →
      strHas "5th" (categoryLowered raw) = true ∨
        strHas "fifth" (categoryLowered raw) = true →
      (strHas "unreserved" (categoryLowered raw) = true →
        normalize_category raw "employment" = "EB-5 Unreserved") ∧
      (strHas "unreserved" (categoryLowered raw) = false →
        strHas "rural" (categoryLowered raw) = true →
        normalize_category raw "employment" = "EB-5 Rural") ∧
      (strHas "unreserved" (categoryLowered raw) = false →
        strHas "rural" (categoryLowered raw) = false →
        strHas "high unemployment" (categoryLowered raw) = true →
        normalize_category raw "employment" = "EB-5 High Unemployment") ∧
      (strHas "unreserved" (categoryLowered raw) = false →
        strHas "rural" (categoryLowered raw) = false →
        strHas "high unemployment" (categoryLowered raw) = false →
        strHas "infrastructure" (categoryLowered raw) = true →
        normalize_category raw "employment" = "EB-5 Infrastructure") ∧
      (strHas "unreserved" (categoryLowered raw) = false →
        strHas "rural" (categoryLowered raw) = false →
        strHas "high unemployment" (categoryLowered raw) = false →
        strHas "infrastructure" (categoryLowered raw) = false →
        (strHas "targeted" (categoryLowered raw) ||
          strHas "regional" (categoryLowered raw)) = true →
        normalize_category raw "employment" = "EB-5 Targeted") ∧
      (strHas "unreserved" (categoryLowered raw) = false →
        strHas "rural" (categoryLowered raw) = false →
        strHas "high unemployment" (categoryLowered raw) = false →
        strHas "infrastructure" (categoryLowered raw) = false →
        (strHas "targeted" (categoryLowered raw) ||
          strHas "regional" (categoryLowered raw)) = false →
        normalize_category raw "employment" = "EB-5")) ∧
    (∀ raw : String,
      strHas "other worker" (categoryLowered raw) = false →
      (strHas "religious worker" (categoryLowered raw) ||
        (strHas "religious" (categoryLowered raw) &&
          strHas "worker" (categoryLowered raw))) = false →
      strHas "5th" (categoryLowered raw) = false →
      strHas "fifth" (categoryLowered raw) = false →
      strHas "targeted" (categoryLowered raw) = true →
      strHas "employment" (categoryLowered raw) = true →
      normalize_category raw "employment" = "EB-5 Targeted") ∧
    (∀ raw : String,
      strHas "other worker" (categoryLowered raw) = false →
      (strHas "religious worker" (categoryLowered raw) ||
        (strHas "religious" (categoryLowered raw) &&
          strHas "worker" (categoryLowered raw))) = false →
      strHas "5th" (categoryLowered raw) = false →
      strHas "fifth" (categoryLowered raw) = false →
      (strHas "targeted" (categoryLowered raw) &&
        strHas "employment" (categoryLowered raw)) = false →
      strHas "schedule a" (categoryLowered raw) = true →
      normalize_category raw "employment" = "Schedule A Workers") ∧
    (∀ raw : String,
      strHas "other worker" (categoryLowered raw) = false →
      (strHas "religious worker" (categoryLowered raw) ||
        (strHas "religious" (categoryLowered raw) &&
          strHas "worker" (categoryLowered raw))) = false →
      strHas "5th" (categoryLowered raw) = false →
      strHas "fifth" (categoryLowered raw) = false →
      (strHas "targeted" (categoryLowered raw) &&
        strHas "employment" (categoryLowered raw)) = false →
      strHas "schedule a" (categoryLowered raw) = false →
      strHas "iraqi" (categoryLowered raw) = true ∨
        strHas "afghani" (categoryLowered raw) = true ∨
        strHas "translator" (categoryLowered raw) = true →
      normalize_category raw "employment" = "Iraqi/Afghani Translators") ∧
    (∀ raw : String,
      categoryLowered raw ≠ "1st" → categoryLowered raw ≠ "1st preference" →
      categoryLowered raw ≠ "2nd" → categoryLowered raw ≠ "2nd preference" →
      categoryLowered raw ≠ "3rd" → categoryLowered raw ≠ "3rd preference" →
      categoryLowered raw ≠ "4th" → categoryLowered raw ≠ "4th preference" →
      strHas "other worker" (categoryLowered raw) = false →
      (strHas "religious worker" (categoryLowered raw) ||
        (strHas "religious" (categoryLowered raw) &&
          strHas "worker" (categoryLowered raw))) = false →
      strHas "5th" (categoryLowered raw) = false →
      strHas "fifth" (categoryLowered raw) = false →
      (strHas "targeted" (categoryLowered raw) &&
        strHas "employment" (categoryLowered raw)) = false →
      strHas "schedule a" (categoryLowered raw) = false →
      strHas "iraqi" (categoryLowered raw) = false →
      strHas "afghani" (categoryLowered raw) = false →
      strHas "translator" (categoryLowered raw) = false →
      normalize_category raw "employment" = categoryCleaned raw) := by
  refine ⟨by decide, by decide, by decide, by decide, by decide, by decide,
    ?_, ?_, ?_, ?_, ?_, ?_, ?_⟩
  · intro raw h
    have n1 := ne_of_strHas "1st" h (by decide)
    have n2 := ne_of_strHas "1st preference" h (by decide)
    have n3 := ne_of_strHas "2nd" h (by decide)
    have n4 := ne_of_strHas "2nd preference" h (by decide)
    have n5 := ne_of_strHas "3rd" h (by decide)
    have n6 := ne_of_strHas "3rd preference" h (by decide)
    simp only [categoryLowered, categoryCleaned] at h n1 n2 n3 n4 n5 n6
    simp [normalize_category, h, n1, n2, n3, n4, n5, n6]
  · intro raw h0 h1 h2
    have n1 := ne_of_strHas "1st" h1 (by decide)
    have n2 := ne_of_strHas "1st preference" h1 (by decide)
    have n3 := ne_of_strHas "2nd" h1 (by decide)
    have n4 := ne_of_strHas "2nd preference" h1 (by decide)
    have n5 := ne_of_strHas "3rd" h1 (by decide)
    have n6 := ne_of_strHas "3rd preference" h1 (by decide)
    have n7 := ne_of_strHas "4th" h1 (by decide)
    have n8 := ne_of_strHas "4th preference" h1 (by decide)
    simp only [categoryLowered, categoryCleaned] at h0 h1 h2 n1 n2 n3 n4 n5 n6 n7 n8
    simp [normalize_category, h0, h1, h2, n1, n2, n3, n4, n5, n6, n7, n8]
  · intro raw h0 hr h5
    have h5' : strHas "5th" (categoryLowered raw) = true ∨
        strHas "fifth" (categoryLowered raw) = true := h5
    have hne : categoryLowered raw ≠ "1st" ∧ categoryLowered raw ≠ "1st preference" ∧
        categoryLowered raw ≠ "2nd" ∧ categoryLowered raw ≠ "2nd preference" ∧
        categoryLowered raw ≠ "3rd" ∧ categoryLowered raw ≠ "3rd preference" ∧
        categoryLowered raw ≠ "4th" ∧ categoryLowered raw ≠ "4th preference" := by
      rcases h5' with h | h <;>
        exact ⟨ne_of_strHas _ h (by decide), ne_of_strHas _ h (by decide),
          ne_of_strHas _ h (by decide), ne_of_strHas _ h (by decide),
          ne_of_strHas _ h (by decide), ne_of_strHas _ h (by decide),
          ne_of_strHas _ h (by decide), ne_of_strHas _ h (by decide)⟩
    obtain ⟨n1, n2, n3, n4, n5, n6, n7, n8⟩ := hne
    refine ⟨?_, ?_, ?_, ?_, ?_, ?_⟩ <;> intros <;>
      rcases h5 with h5 | h5 <;>
      simp only [categoryLowered, categoryCleaned] at * <;>
      simp [normalize_category, *]
  · intro raw h0 hr h5a h5b ht he
    have n1 := ne_of_strHas "1st" ht (by decide)
    have n2 := ne_of_strHas "1st preference" ht (by decide)
    have n3 := ne_of_strHas "2nd" ht (by decide)
    have n4 := ne_of_strHas "2nd preference" ht (by decide)
    have n5 := ne_of_strHas "3rd" ht (by decide)
    have n6 := ne_of_strHas "3rd preference" ht (by decide)
    have n7 := ne_of_strHas "4th" ht (by decide)
    have n8 := ne_of_strHas "4th preference" ht (by decide)
    simp only [categoryLowered, categoryCleaned] at h0 hr h5a h5b ht he n1 n2 n3 n4 n5 n6 n7 n8
    simp [normalize_category, h0, hr, h5a, h5b, ht, he, n1, n2, n3, n4, n5, n6, n7, n8]
  · intro raw h0 hr h5a h5b hte hs
    have hne : categoryLowered raw ≠ "1st" ∧ categoryLowered raw ≠ "1st preference" ∧
        categoryLowered raw ≠ "2nd" ∧ categoryLowered raw ≠ "2nd preference" ∧
        categoryLowered raw ≠ "3rd" ∧ categoryLowered raw ≠ "3rd preference" ∧
        categoryLowered raw ≠ "4th" ∧ categoryLowered raw ≠ "4th preference" :=
      ⟨ne_of_strHas _ hs (by decide), ne_of_strHas _ hs (by decide),
        ne_of_strHas _ hs (by decide), ne_of_strHas _ hs (by decide),
        ne_of_strHas _ hs (by decide), ne_of_strHas _ hs (by decide),
        ne_of_strHas _ hs (by decide), ne_of_strHas _ hs (by decide)⟩
    obtain ⟨k1, k2, k3, k4, k5, k6, k7, k8⟩ := hne
    simp only [categoryLowered, categoryCleaned] at h0 hr h5a h5b hte hs k1 k2 k3 k4 k5 k6 k7 k8
    simp [normalize_category, h0, hr, h5a, h5b, hte, hs, k1, k2, k3, k4, k5, k6, k7, k8]
  · intro raw h0 hr h5a h5b hte hsa hi
    have hne : categoryLowered raw ≠ "1st" ∧ categoryLowered raw ≠ "1st preference" ∧
        categoryLowered raw ≠ "2nd" ∧ categoryLowered raw ≠ "2nd preference" ∧
        categoryLowered raw ≠ "3rd" ∧ categoryLowered raw ≠ "3rd preference" ∧
        categoryLowered raw ≠ "4th" ∧ categoryLowered raw ≠ "4th preference" := by
      rcases hi with h | h | h <;>
        exact ⟨ne_of_strHas _ h (by decide), ne_of_strHas _ h (by decide),
          ne_of_strHas _ h (by decide), ne_of_strHas _ h (by decide),
          ne_of_strHas _ h (by decide), ne_of_strHas _ h (by decide),
          ne_of_strHas _ h (by decide), ne_of_strHas _ h (by decide)⟩
    obtain ⟨k1, k2, k3, k4, k5, k6, k7, k8⟩ := hne
    rcases hi with h | h | h <;>
      simp only [categoryLowered, categoryCleaned] at h0 hr h5a h5b hte hsa h k1 k2 k3 k4 k5 k6 k7 k8 <;>
      simp [normalize_category, h0, hr, h5a, h5b, hte, hsa, h,
        k1, k2, k3, k4, k5, k6, k7, k8]
  · intro raw k1 k2 k3 k4 k5 k6 k7 k8 h0 hr h5a h5b hte hsa hi1 hi2 hi3
    simp only [categoryLowered, categoryCleaned] at k1 k2 k3 k4 k5 k6 k7 k8 h0 hr h5a h5b hte hsa hi1 hi2 hi3
    simp [normalize_category, categoryCleaned, k1, k2, k3, k4, k5, k6, k7, k8, h0, hr,
      h5a, h5b, hte, hsa, hi1, hi2, hi3]

/-- Witness for `normalize_category_employment_rules` at concrete inputs for
the containment branches. -/
theorem normalize_category_employment_rules_witness :
    normalize_category "Other Worker rows" "employment" = "EB-3 Other Workers" ∧
    normalize_category "Certain Religious Workers" "employment" = "EB-4 Religious Workers" ∧
    normalize_category "5th Set Aside: Rural (20%)" "employment" = "EB-5 Rural" ∧
    normalize_category "Targeted Employment Areas" "employment" = "EB-5 Targeted" ∧
    normalize_category "Schedule A Workers" "employment" = "Schedule A Workers" ∧
    normalize_category "Iraqi translators" "employment" = "Iraqi/Afghani Translators" ∧
    normalize_category "Priority workers" "employment" = categoryCleaned "Priority workers" :=
  ⟨normalize_category_employment_rules.2.2.2.2.2.2.1 "Other Worker rows" (by decide),
   normalize_category_employment_rules.2.2.2.2.2.2.2.1 "Certain Religious Workers"
     (by decide) (by decide) (by decide),
   (normalize_category_employment_rules.2.2.2.2.2.2.2.2.1 "5th Set Aside: Rural (20%)"
     (by decide) (by decide) (Or.inl (by decide))).2.1 (by decide) (by decide),
   normalize_category_employment_rules.2.2.2.2.2.2.2.2.2.1 "Targeted Employment Areas"
     (by decide) (by decide) (by decide) (by decide) (by decide) (by decide),
   normalize_category_employment_rules.2.2.2.2.2.2.2.2.2.2.1 "Schedule A Workers"
     (by decide) (by decide) (by decide) (by decide) (by decide) (by decide),
   normalize_category_employment_rules.2.2.2.2.2.2.2.2.2.2.2.1 "Iraqi translators"
     (by decide) (by decide) (by decide) (by decide) (by decide) (by decide)
     (Or.inl (by decide)),
   normalize_category_employment_rules.2.2.2.2.2.2.2.2.2.2.2.2 "Priority workers"
     (by decide) (by decide) (by decide) (by decide) (by decide) (by decide)
     (by decide) (by decide) (by decide) (by decide) (by decide) (by decide)
     (by decide) (by decide) (by decide) (by decide) (by decide)⟩

/-- The header classifier returns `none`, `family` or `employment`. -/
theorem identify_cases (h : String) :
    _identify_table_by_header h = none ∨ _identify_table_by_header h = some "family" ∨
      _identify_table_by_header h = some "employment" := by
  unfold _identify_table_by_header
  dsimp only
  split_ifs <;> simp

/-- A table's visa type is `none`, `family` or `employment`. -/
theorem tableVisaType_cases (rows : HtmlTable) :
    tableVisaType rows = none ∨ tableVisaType rows = some "family" ∨
      tableVisaType rows = some "employment" := by
  unfold tableVisaType
  split
  · exact Or.inl rfl
  · split
    · exact Or.inl rfl
    · split
      · exact Or.inl rfl
      · exact identify_cases _

/-- Unfolding the match-count of the table after a leading table. -/
theorem countMatchesBefore_cons (t : HtmlTable) (ts : List HtmlTable) (i : Nat) :
    countMatchesBefore (t :: ts) (i + 1) =
      countMatchesBefore ts i +
        (if tableVisaType t = tableVisaType (ts.getD i []) then 1 else 0) := by
  simp [countMatchesBefore, List.take_succ_cons, List.countP_cons, List.getD_cons_succ]

/-- The match-count of the leading table is zero. -/
theorem countMatchesBefore_zero (ts : List HtmlTable) : countMatchesBefore ts 0 = 0 := by
  simp [countMatchesBefore]

/-- The table loop of `parse_bulletin`, started from arbitrary counters,
emits for every table the contribution determined by its visa type and by
the number of earlier same-type tables (offset by the starting counter):
zero earlier matches give `final_action`, any other number gives
`filing`. -/
theorem parseTables_eq_rank (tables : List HtmlTable) :
    ∀ fam emp : Nat,
      parseTables fam emp tables =
        ((List.range tables.length).map (fun i =>
          tableContribution (tables.getD i [])
            (if baseCount fam emp (tableVisaType (tables.getD i [])) +
                countMatchesBefore tables i = 0
              then "final_action" else "filing"))).flatten := by
  induction tables with
  | nil => intro fam emp; rfl
  | cons t ts ih =>
    intro fam emp
    rw [List.length_cons, List.range_succ_eq_map, List.map_cons, List.flatten_cons,
      List.map_map]
    have htail : ∀ f e : Nat,
        ((List.range ts.length).map
          ((fun i => tableContribution ((t :: ts).getD i [])
            (if baseCount f e (tableVisaType ((t :: ts).getD i [])) +
                countMatchesBefore (t :: ts) i = 0
              then "final_action" else "filing")) ∘ Nat.succ)) =
        ((List.range ts.length).map (fun i => tableContribution (ts.getD i [])
          (if baseCount f e (tableVisaType (ts.getD i [])) +
              (countMatchesBefore ts i +
                (if tableVisaType t = tableVisaType (ts.getD i []) then 1 else 0)) = 0
            then "final_action" else "filing"))) := by
      intro f e
      refine List.map_congr_left fun i _ => ?_
      simp only [Function.comp, Nat.succ_eq_add_one, List.getD_cons_succ,
        countMatchesBefore_cons]
    rcases tableVisaType_cases t with hv | hv | hv
    · have hL : parseTables fam emp (t :: ts) = parseTables fam emp ts := by
        simp only [parseTables, hv]
      have hhead : tableContribution ((t :: ts).getD 0 [])
          (if baseCount fam emp (tableVisaType ((t :: ts).getD 0 [])) +
              countMatchesBefore (t :: ts) 0 = 0
            then "final_action" else "filing") = [] := by
        rw [List.getD_cons_zero]
        unfold tableContribution
        rw [hv]
      rw [hL, ih fam emp, hhead, List.nil_append, htail]
      congr 1
      refine List.map_congr_left fun i _ => ?_
      rcases tableVisaType_cases (ts.getD i []) with h2 | h2 | h2
      · unfold tableContribution
        rw [h2]
      · rw [h2, hv,
          show (if (none : Option String) = some "family" then (1:Nat) else 0) = 0 by simp,
          Nat.add_zero]
      · rw [h2, hv,
          show (if (none : Option String) = some "employment" then (1:Nat) else 0) = 0 by simp,
          Nat.add_zero]
    · have hL : parseTables fam emp (t :: ts) =
          (if tableCountries (t.headD []) = [] then []
            else parseRows (if fam + 1 = 1 then "final_action" else "filing") "family"
              (tableCountries (t.headD [])) (t.drop 1)) ++
          parseTables (fam + 1) emp ts := by
        simp only [parseTables, hv]
        rfl
      have hhead : tableContribution ((t :: ts).getD 0 [])
          (if baseCount fam emp (tableVisaType ((t :: ts).getD 0 [])) +
              countMatchesBefore (t :: ts) 0 = 0
            then "final_action" else "filing") =
          (if tableCountries (t.headD []) = [] then []
            else parseRows (if fam + 1 = 1 then "final_action" else "filing") "family"
              (tableCountries (t.headD [])) (t.drop 1)) := by
        rw [List.getD_cons_zero, countMatchesBefore_zero, hv]
        have hflag : (if baseCount fam emp (some "family") + 0 = 0
              then "final_action" else "filing") =
            (if fam + 1 = 1 then "final_action" else "filing") := by
          rw [show baseCount fam emp (some ("family" : String)) = fam from by
            simp [baseCount]]
          by_cases hf : fam = 0 <;> simp [hf]
        rw [hflag]
        unfold tableContribution
        rw [hv]
      rw [hL, ih (fam + 1) emp, hhead, htail]
      congr 2
      refine List.map_congr_left fun i _ => ?_
      rcases tableVisaType_cases (ts.getD i []) with h2 | h2 | h2
      · unfold tableContribution
        rw [h2]
      · rw [h2, hv,
          show baseCount (fam + 1) emp (some ("family" : String)) = fam + 1 from by
            simp [baseCount],
          show baseCount fam emp (some ("family" : String)) = fam from by
            simp [baseCount],
          show (if (some ("family" : String) : Option String) = some "family"
              then (1:Nat) else 0) = 1 from by simp,
          if_neg (by omega : ¬(fam + 1 + countMatchesBefore ts i = 0)),
          if_neg (by omega : ¬(fam + (countMatchesBefore ts i + 1) = 0))]
      · rw [h2, hv,
          show baseCount (fam + 1) emp (some ("employment" : String)) = emp from by
            simp [baseCount],
          show baseCount fam emp (some ("employment" : String)) = emp from by
            simp [baseCount],
          show (if (some ("family" : String) : Option String) = some "employment"
              then (1:Nat) else 0) = 0 from by simp,
          Nat.add_zero]
    · have hL : parseTables fam emp (t :: ts) =
          (if tableCountries (t.headD []) = [] then []
            else parseRows (if emp + 1 = 1 then "final_action" else "filing") "employment"
              (tableCountries (t.headD [])) (t.drop 1)) ++
          parseTables fam (emp + 1) ts := by
        simp only [parseTables, hv]
        rfl
      have hhead : tableContribution ((t :: ts).getD 0 [])
          (if baseCount fam emp (tableVisaType ((t :: ts).getD 0 [])) +
              countMatchesBefore (t :: ts) 0 = 0
            then "final_action" else "filing") =
          (if tableCountries (t.headD []) = [] then []
            else parseRows (if emp + 1 = 1 then "final_action" else "filing") "employment"
              (tableCountries (t.headD [])) (t.drop 1)) := by
        rw [List.getD_cons_zero, countMatchesBefore_zero, hv]
        have hflag : (if baseCount fam emp (some "employment") + 0 = 0
              then "final_action" else "filing") =
            (if emp + 1 = 1 then "final_action" else "filing") := by
          rw [show baseCount fam emp (some ("employment" : String)) = emp from by
            simp [baseCount]]
          by_cases hf : emp = 0 <;> simp [hf]
        rw [hflag]
        unfold tableContribution
        rw [hv]
      rw [hL, ih fam (emp + 1), hhead, htail]
      congr 2
      refine List.map_congr_left fun i _ => ?_
      rcases tableVisaType_cases (ts.getD i []) with h2 | h2 | h2
      · unfold tableContribution
        rw [h2]
      · rw [h2, hv,
          show baseCount fam (emp + 1) (some ("family" : String)) = fam from by
            simp [baseCount],
          show baseCount fam emp (some ("family" : String)) = fam from by
            simp [baseCount],
          show (if (some ("employment" : String) : Option String) = some "family"
              then (1:Nat) else 0) = 0 from by simp,
          Nat.add_zero]
      · rw [h2, hv,
          show baseCount fam (emp + 1) (some ("employment" : String)) = emp + 1 from by
            simp [baseCount],
          show baseCount fam emp (some ("employment" : String)) = emp from by
            simp [baseCount],
          show (if (some ("employment" : String) : Option String) = some "employment"
              then (1:Nat) else 0) = 1 from by simp,
          if_neg (by omega : ¬(emp + 1 + countMatchesBefore ts i = 0)),
          if_neg (by omega : ¬(emp + (countMatchesBefore ts i + 1) = 0))]

/-- C1 counterexample: a third matching table for the same visa type is not
ignored — it contributes records, labelled `filing` like the second, so a
document with three family tables yields three records, the third of which
carries `table_type = "filing"`. -/
theorem parse_bulletin_third_table_contributes :
    parse_bulletin
        [[["Family-Sponsored", "China"], ["F1", "01FEB23"]],
         [["Family-Sponsored", "China"], ["F1", "01FEB23"]],
         [["Family-Sponsored", "China"], ["F1", "01FEB23"]]] =
      [⟨"final_action", "family", "F1", "China", "2023-02-01"⟩,
       ⟨"filing", "family", "F1", "China", "2023-02-01"⟩,
       ⟨"filing", "family", "F1", "China", "2023-02-01"⟩] ∧
    (parse_bulletin
        [[["Family-Sponsored", "China"], ["F1", "01FEB23"]],
         [["Family-Sponsored", "China"], ["F1", "01FEB23"]],
         [["Family-Sponsored", "China"], ["F1", "01FEB23"]]]).length = 3 := by
  constructor
  · decide
  · decide

/-- C1 (amended): `parse_bulletin` classifies matching tables per visa type
by encounter order — a table with no earlier same-type matching table
yields `final_action` records, and every later same-type matching table
(the second, third, ...) yields `filing` records.  Hence at most one
`final_action` table exists per visa type per document, but tables beyond
the second are not ignored: they contribute further `filing` records. -/
theorem parse_bulletin_rank_classification (tables : List HtmlTable) :
    parse_bulletin tables =
      ((List.range tables.length).map (fun i =>
        tableContribution (tables.getD i [])
          (if countMatchesBefore tables i = 0 then "final_action" else "filing"))).flatten := by
  rw [parse_bulletin, parseTables_eq_rank]
  congr 1
  refine List.map_congr_left fun i _ => ?_
  have hb : baseCount 0 0 (tableVisaType (tables.getD i [])) = 0 := by
    rcases tableVisaType (tables.getD i []) with _ | v
    · rfl
    · simp [baseCount]
  rw [hb, Nat.zero_add]

/-- A table whose structural gate fails (too few rows, empty header row, or
unrecognized first header cell) is transparent to the table loop: it leaves
both counters and the emitted records unchanged. -/
theorem parseTables_skip_none (t : HtmlTable) (ht : tableVisaType t = none) :
    ∀ (pre post : List HtmlTable) (fam emp : Nat),
      parseTables fam emp (pre ++ t :: post) = parseTables fam emp (pre ++ post) := by
  intro pre
  induction pre with
  | nil =>
    intro post fam emp
    rw [List.nil_append, List.nil_append]
    simp only [parseTables, ht]
  | cons p ps ih =>
    intro post fam emp
    rw [List.cons_append, List.cons_append]
    rcases tableVisaType_cases p with hp | hp | hp
    · simp only [parseTables, hp]
      exact ih post fam emp
    · simp only [parseTables, hp]
      rw [ih]
    · simp only [parseTables, hp]
      rw [ih]

/-- C8: `parse_bulletin` never fails on malformed tables.  An empty document
yields no records; a table with fewer than two rows, an empty header row or
a first header cell that mentions neither family nor employment (e.g.
"Notes") is skipped entirely, leaving the rest of the document's output
unchanged; a matching table whose resolved country list is empty
contributes no records; and the other tables of such a document are still
processed (the concrete document with a "Notes" table parses exactly like
the document without it, and still yields its family records). -/
theorem parse_bulletin_malformed_tables :
    parse_bulletin [] = [] ∧
    (∀ (pre post : List HtmlTable) (t : HtmlTable), tableVisaType t = none →
      parse_bulletin (pre ++ t :: post) = parse_bulletin (pre ++ post)) ∧
    (∀ (rows : HtmlTable) (table_type : String),
      tableVisaType rows = none ∨ tableCountries (rows.headD []) = [] →
      tableContribution rows table_type = []) ∧
    parse_bulletin [[["Notes", "x"], ["a", "b"]],
        [["Family-Sponsored", "China"], ["F1", "01FEB23"]]] =
      parse_bulletin [[["Family-Sponsored", "China"], ["F1", "01FEB23"]]] ∧
    parse_bulletin [[["Family-Sponsored", "China"], ["F1", "01FEB23"]]] ≠ [] ∧
    (parse_bulletin [[["Family-Sponsored", ""], ["F1", "01FEB23"]],
        [["Family-Sponsored", "China"], ["F1", "01FEB23"]]]).length = 1 := by
  refine ⟨rfl, ?_, ?_, by decide, by decide, by decide⟩
  · intro pre post t ht
    exact parseTables_skip_none t ht pre post 0 0
  · intro rows table_type h
    rcases h with h | h
    · unfold tableContribution
      rw [h]
    · rcases tableVisaType_cases rows with hv | hv | hv
      · unfold tableContribution
        rw [hv]
      · unfold tableContribution
        rw [hv]
        simp only [List.headD_eq_head?_getD] at h
        simp [h]
      · unfold tableContribution
        rw [hv]
        simp only [List.headD_eq_head?_getD] at h
        simp [h]

/-- Witness for `parse_bulletin_malformed_tables`: the skip clause and the
empty-contribution clause applied at concrete malformed tables. -/
theorem parse_bulletin_malformed_tables_witness :
    parse_bulletin [[["Notes", "x"], ["a", "b"]],
        [["Family-Sponsored", "China"], ["F1", "01FEB23"]]] =
      parse_bulletin [[["Family-Sponsored", "China"], ["F1", "01FEB23"]]] ∧
    tableContribution [["Family-Sponsored", ""], ["F1", "01FEB23"]] "final_action" = [] :=
  ⟨parse_bulletin_malformed_tables.2.1 [] [[["Family-Sponsored", "China"], ["F1", "01FEB23"]]]
      [["Notes", "x"], ["a", "b"]] (by decide),
   parse_bulletin_malformed_tables.2.2.1 [["Family-Sponsored", ""], ["F1", "01FEB23"]]
      "final_action" (Or.inr (by decide))⟩

/-- Filtering out the empty string is the identity on a list without it. -/
theorem filter_ne_empty_eq_self (l : List String) (h : "" ∉ l) :
    l.filter (fun c => c ≠ "") = l :=
  List.filter_eq_self.mpr (fun a ha => by
    simpa using fun e : a = "" => h (e ▸ ha))

/-- `pairCells` pairs the cell and the country at the same index: whenever
both lists are long enough and the cell is non-empty, the record built from
the `i`-th cell and the `i`-th country is emitted. -/
theorem pairCells_pairs_by_index (table_type visa_type category : String) :
    ∀ (cells countries : List String) (i : Nat),
      i < cells.length → i < countries.length → cells.getD i "" ≠ "" →
      (⟨table_type, visa_type, category, countries.getD i "",
        parse_date (cells.getD i "")⟩ : BulletinRecord) ∈
        pairCells table_type visa_type category cells countries := by
  intro cells
  induction cells with
  | nil => intro countries i h1; simp at h1
  | cons c cs ih =>
    intro countries i h1 h2 h3
    cases countries with
    | nil => simp at h2
    | cons k ks =>
      cases i with
      | zero =>
        simp only [List.getD_cons_zero] at h3 ⊢
        rw [show pairCells table_type visa_type category (c :: cs) (k :: ks) =
          (if c = "" then [] else [⟨table_type, visa_type, category, k, parse_date c⟩]) ++
            pairCells table_type visa_type category cs ks from rfl]
        rw [if_neg h3]
        exact List.mem_append.mpr (Or.inl (List.mem_singleton.mpr rfl))
      | succ n =>
        simp only [List.getD_cons_succ] at h3 ⊢
        rw [show pairCells table_type visa_type category (c :: cs) (k :: ks) =
          (if c = "" then [] else [⟨table_type, visa_type, category, k, parse_date c⟩]) ++
            pairCells table_type visa_type category cs ks from rfl]
        have h1' : n < cs.length := by simp at h1; omega
        have h2' : n < ks.length := by simp at h2; omega
        exact List.mem_append.mpr (Or.inr (ih ks n h1' h2' h3))

/-- C9 counterexample: with a middle header cell normalizing to empty, the
data cell at the empty column and every cell to its right pair with the
country one non-empty column to the RIGHT — not the left — and the last
data cell is dropped: `x2` (under the empty header) gets India, `x3` (under
India) gets Mexico, and `x4` (under Mexico) yields no record at all. -/
theorem empty_header_column_cex :
    parse_bulletin [[["Family-Sponsored", "China", "", "India", "Mexico"],
        ["F1", "x1", "x2", "x3", "x4"]]] =
      [⟨"final_action", "family", "F1", "China", "X1"⟩,
       ⟨"final_action", "family", "F1", "India", "X2"⟩,
       ⟨"final_action", "family", "F1", "Mexico", "X3"⟩] ∧
    ((parse_bulletin [[["Family-Sponsored", "China", "", "India", "Mexico"],
        ["F1", "x1", "x2", "x3", "x4"]]]).countP
      (fun r => r.priority_date == "X4")) = 0 := by
  constructor
  · decide
  · decide

/-- C9 (amended): `parse_bulletin` drops header cells after the first whose
normalized text is empty from the ordered country list, and pairs data
cells with that filtered list by index.  Consequently, when exactly one
middle header cell normalizes to empty, the countries at positions at or
beyond the gap are the normalized headers one column further to the right —
each such data cell is paired with the country of the column one position
further RIGHT, and trailing data cells beyond the filtered list are
dropped. -/
theorem empty_header_column_shifts_right :
    (∀ (h0 : String) (hdr A B : List String),
      hdr.map normalize_country = A ++ "" :: B →
      "" ∉ A → "" ∉ B →
      tableCountries (h0 :: hdr) = A ++ B ∧
      (∀ j, A.length ≤ j → (A ++ B)[j]? = (hdr.map normalize_country)[j + 1]?)) ∧
    (∀ (table_type visa_type category : String) (cells countries : List String) (i : Nat),
      i < cells.length → i < countries.length → cells.getD i "" ≠ "" →
      (⟨table_type, visa_type, category, countries.getD i "",
        parse_date (cells.getD i "")⟩ : BulletinRecord) ∈
        pairCells table_type visa_type category cells countries) := by
  constructor
  · intro h0 hdr A B hmap hA hB
    constructor
    · unfold tableCountries
      rw [show (h0 :: hdr).drop 1 = hdr from rfl, hmap, List.filter_append,
        filter_ne_empty_eq_self A hA,
        show ("" :: B).filter (fun c => c ≠ "") = B.filter (fun c => c ≠ "") from by simp,
        filter_ne_empty_eq_self B hB]
    · intro j hj
      rw [List.getElem?_append_right hj, hmap,
        List.getElem?_append_right (by omega : A.length ≤ j + 1),
        show j + 1 - A.length = (j - A.length) + 1 from by omega,
        List.getElem?_cons_succ]
  · exact pairCells_pairs_by_index

/-- Witness for `empty_header_column_shifts_right` at the concrete header
row with one empty middle column. -/
theorem empty_header_column_shifts_right_witness :
    tableCountries ["Family-Sponsored", "China", "", "India", "Mexico"] =
      ["China"] ++ ["India", "Mexico"] ∧
    (⟨"final_action", "family", "F1", "India", parse_date "x2"⟩ : BulletinRecord) ∈
      pairCells "final_action" "family" "F1" ["x1", "x2", "x3", "x4"]
        ["China", "India", "Mexico"] :=
  ⟨(empty_header_column_shifts_right.1 "Family-Sponsored" ["China", "", "India", "Mexico"]
      ["China"] ["India", "Mexico"] (by decide) (by decide) (by decide)).1,
   empty_header_column_shifts_right.2 "final_action" "family" "F1"
      ["x1", "x2", "x3", "x4"] ["China", "India", "Mexico"] 1
      (by decide) (by decide) (by decide)⟩
